import Mathlib

/-!
Verification of the VoiceOwl transcription workflow service.

This file gives a shallow embedding of the workflow state machine found in
src/services/workflow.service.ts, the HTTP controller validation found in
the workflow controller, and the retrying remote-speech producer found in
the Azure service, and proves the specified properties about them.

Machine conventions: record identifiers and timestamps are natural numbers
and the document store is a list of records. The Transcription schema sets no
optimisticConcurrency, so a mongoose save adds no predicate on the status a
caller validated against. Sequential commits are modelled as a replace-by-id
(saveById); the write mongoose actually issues for a modified document is the
path diff modelled by diffSave, and the two agree whenever the saved document
was advanced from the latest stored read (diffSave_agrees_sequential).
-/

/-- Workflow statuses, mirroring the five string statuses of the service. -/
inductive WStatus where
  | transcription
  | review
  | approval
  | completed
  | rejected
deriving DecidableEq

/-- String name of a status, as it appears in error messages. -/
def statusName : WStatus → String
  | .transcription => "transcription"
  | .review => "review"
  | .approval => "approval"
  | .completed => "completed"
  | .rejected => "rejected"

/-- The validTransitions table of WorkflowService (workflow.service.ts lines 36 to 42),
in source order. -/
def validTransitions : WStatus → List WStatus
  | .transcription => [.review, .rejected]
  | .review => [.approval, .rejected, .transcription]
  | .approval => [.completed, .rejected]
  | .completed => []
  | .rejected => [.transcription]

/-- One entry of the workflowHistory array. -/
structure HistoryEntry where
  status : WStatus
  timestamp : Nat
  comment : Option String
  reviewedBy : Option String
deriving DecidableEq

/-- A document of the transcriptions collection. workflowStatus is optional
in the schema interface (hence Option here, and the service guards every read
of it), but the schema assigns it the default transcription on insert;
workflowHistory defaults to the empty array. -/
structure TranscriptionRecord where
  id : Nat
  audioUrl : String
  transcriptionText : String
  source : String
  language : String
  workflowStatus : Option WStatus
  workflowHistory : List HistoryEntry
  createdAt : Nat
  updatedAt : Nat
deriving DecidableEq

/-- Transcription.findById over the store. -/
def findById (store : List TranscriptionRecord) (i : Nat) : Option TranscriptionRecord :=
  store.find? (fun t => t.id == i)

/-- Simplified commit used on the sequential path: replace the record
carrying the same id, with no stale-status check. For a document advanced
from the latest stored read this writes the same store as the path diff
mongoose actually issues (see diffSave and diffSave_agrees_sequential). -/
def saveById (store : List TranscriptionRecord) (r : TranscriptionRecord) :
    List TranscriptionRecord :=
  store.map (fun t => if t.id == r.id then r else t)

/-- Errors thrown by the workflow service. -/
inductive WError where
  | notFound
  | noWorkflowStatus
  | invalidTransition (src : WStatus) (dst : WStatus) (valid : List WStatus)
deriving DecidableEq

/-- The message string of each service error, as built by the source. -/
def errMessage : WError → String
  | .notFound => "Transcription not found"
  | .noWorkflowStatus => "No workflow status found for this transcription"
  | .invalidTransition src dst valid =>
      "Invalid transition from " ++ statusName src ++ " to " ++ statusName dst ++
      ". Valid transitions: " ++ String.intercalate ", " (valid.map statusName)

/-- Body of a transition request (id from the path, rest from the body). -/
structure TransitionRequest where
  transcriptionId : Nat
  newStatus : WStatus
  comment : Option String
  reviewedBy : Option String
deriving DecidableEq

/-- The updated document built in memory by transitionWorkflow before save:
status set, updatedAt set, one history entry pushed. -/
def advanceRecord (t : TranscriptionRecord) (req : TransitionRequest) (now : Nat) :
    TranscriptionRecord :=
  { t with
    workflowStatus := some req.newStatus
    updatedAt := now
    workflowHistory := t.workflowHistory ++
      [{ status := req.newStatus, timestamp := now,
         comment := req.comment, reviewedBy := req.reviewedBy }] }

/-- Read-and-validate phase of transitionWorkflow (workflow.service.ts lines 91
to 123): find the record, require a workflow status, require membership in the
transition table, and build the updated document. No store write happens here. -/
def transitionValidate (now : Nat) (store : List TranscriptionRecord)
    (req : TransitionRequest) : Except WError TranscriptionRecord :=
  match findById store req.transcriptionId with
  | none => .error .notFound
  | some t =>
    match t.workflowStatus with
    | none => .error .noWorkflowStatus
    | some cur =>
      if req.newStatus ∈ validTransitions cur then
        .ok (advanceRecord t req now)
      else
        .error (.invalidTransition cur req.newStatus (validTransitions cur))

/-- Commit phase of transitionWorkflow: the save call, an unconditional
replace-by-id. -/
def transitionCommit (store : List TranscriptionRecord) (r : TranscriptionRecord) :
    List TranscriptionRecord :=
  saveById store r

/-- transitionWorkflow: validate then save. Returns the store after the write,
or the thrown error. -/
def transitionWorkflow (now : Nat) (store : List TranscriptionRecord)
    (req : TransitionRequest) : Except WError (List TranscriptionRecord) :=
  (transitionValidate now store req).map (transitionCommit store)

/-- The store as seen after a transition call: unchanged when the call threw. -/
def runTransition (now : Nat) (store : List TranscriptionRecord)
    (req : TransitionRequest) : List TranscriptionRecord :=
  match transitionWorkflow now store req with
  | .ok s => s
  | .error _ => store

/-- A sample store holding one freshly created workflow record. -/
def sampleEntry0 : HistoryEntry :=
  { status := .transcription, timestamp := 0,
    comment := some "Workflow initiated - transcription completed", reviewedBy := none }

def sampleRec0 : TranscriptionRecord :=
  { id := 0,
    audioUrl := "https://example.com/a.mp3",
    transcriptionText := "sample text",
    source := "mock",
    language := "en-US",
    workflowStatus := some .transcription,
    workflowHistory := [sampleEntry0],
    createdAt := 0,
    updatedAt := 0 }

def sampleStore : List TranscriptionRecord := [sampleRec0]

/-- C1: for every stored record and every requested newStatus, the transition
succeeds if and only if newStatus is in the allowed-next set of the current
status; otherwise it fails with the InvalidTransition error whose message
enumerates the allowed set, and the store is left unchanged. -/
theorem transition_succeeds_iff_allowed (now : Nat) (store : List TranscriptionRecord)
    (req : TransitionRequest) (r : TranscriptionRecord) (cur : WStatus)
    (hfind : findById store req.transcriptionId = some r)
    (hst : r.workflowStatus = some cur) :
    ((transitionWorkflow now store req).isOk = true ↔ req.newStatus ∈ validTransitions cur) ∧
    (req.newStatus ∉ validTransitions cur →
      transitionWorkflow now store req =
        .error (.invalidTransition cur req.newStatus (validTransitions cur)) ∧
      runTransition now store req = store ∧
      errMessage (.invalidTransition cur req.newStatus (validTransitions cur)) =
        "Invalid transition from " ++ statusName cur ++ " to " ++ statusName req.newStatus ++
        ". Valid transitions: " ++
          String.intercalate ", " ((validTransitions cur).map statusName)) := by
  by_cases h : req.newStatus ∈ validTransitions cur
  · constructor
    · simp [transitionWorkflow, transitionValidate, hfind, hst, h, Except.map, Except.isOk,
        Except.toBool]
    · intro hc; exact absurd h hc
  · refine ⟨?_, fun _ => ⟨?_, ?_, rfl⟩⟩
    · simp [transitionWorkflow, transitionValidate, hfind, hst, h, Except.map, Except.isOk,
        Except.toBool]
    · simp [transitionWorkflow, transitionValidate, hfind, hst, h, Except.map]
    · simp [runTransition, transitionWorkflow, transitionValidate, hfind, hst, h, Except.map]

/-- Witness for C1 at a concrete input: from status transcription, a request
for completed is rejected exactly because completed is not in the allowed set. -/
theorem transition_succeeds_iff_allowed_witness :
    ((transitionWorkflow 1 sampleStore
        { transcriptionId := 0, newStatus := .completed,
          comment := none, reviewedBy := none }).isOk = true ↔
      WStatus.completed ∈ validTransitions .transcription) :=
  (transition_succeeds_iff_allowed 1 sampleStore
    { transcriptionId := 0, newStatus := .completed, comment := none, reviewedBy := none }
    sampleRec0 .transcription (by decide) (by decide)).1

/-- The initial history entry written by createWorkflow. -/
def initialHistoryEntry (now : Nat) : HistoryEntry :=
  { status := .transcription, timestamp := now,
    comment := some "Workflow initiated - transcription completed", reviewedBy := none }

/-- The record built by createWorkflow before the save call. -/
def initialWorkflowRecord (now : Nat) (newId : Nat) (url : String)
    (language : Option String) (text : String) : TranscriptionRecord :=
  { id := newId,
    audioUrl := url,
    transcriptionText := text,
    source := "mock",
    language := language.getD "en-US",
    workflowStatus := some .transcription,
    workflowHistory := [initialHistoryEntry now],
    createdAt := now,
    updatedAt := now }

/-- createWorkflow (workflow.service.ts lines 47 to 84): mock audio download,
mock text generation, then a single insert of the fully built record as the
atomic completion step. The download outcome and the store-write outcome are
inputs of the model; the source decides them with Math.random and with the
database write respectively. -/
def createWorkflow (now : Nat) (newId : Nat) (store : List TranscriptionRecord)
    (url : String) (language : Option String) (downloadOk : Bool) (text : String)
    (storeWriteOk : Bool) :
    Except String (List TranscriptionRecord × TranscriptionRecord) :=
  if downloadOk = false then
    .error "Audio download failed - network timeout"
  else
    if storeWriteOk = false then
      .error "store write failed"
    else
      .ok (store ++ [initialWorkflowRecord now newId url language text],
        initialWorkflowRecord now newId url language text)

/-- The store as seen after a createWorkflow call: unchanged when it threw. -/
def runCreate (now : Nat) (newId : Nat) (store : List TranscriptionRecord)
    (url : String) (language : Option String) (downloadOk : Bool) (text : String)
    (storeWriteOk : Bool) : List TranscriptionRecord :=
  match createWorkflow now newId store url language downloadOk text storeWriteOk with
  | .ok (s, _) => s
  | .error _ => store

/-- Public status view returned by the workflow endpoints. -/
structure WorkflowStatusResponse where
  id : Nat
  currentStatus : WStatus
  workflowHistory : List HistoryEntry
  canTransition : List WStatus
deriving DecidableEq

/-- formatWorkflowResponse (workflow.service.ts lines 287 to 297): a missing
workflowStatus falls back to transcription, a missing history to the empty
list, and canTransition is looked up in the transition table. -/
def formatWorkflowResponse (t : TranscriptionRecord) : WorkflowStatusResponse :=
  { id := t.id,
    currentStatus := t.workflowStatus.getD .transcription,
    workflowHistory := t.workflowHistory,
    canTransition := validTransitions (t.workflowStatus.getD .transcription) }

/-- getWorkflowStatus: find the record and project the status view. -/
def getWorkflowStatus (store : List TranscriptionRecord) (i : Nat) :
    Except WError WorkflowStatusResponse :=
  match findById store i with
  | none => .error .notFound
  | some t => .ok (formatWorkflowResponse t)

/-- createTranscription of the plain transcription service: the document is
built without workflow fields, but on insert the schema fills workflowStatus
with its default transcription and workflowHistory with the empty array
(Transcription schema, the model source of the repository). -/
def createTranscription (now : Nat) (newId : Nat) (store : List TranscriptionRecord)
    (url : String) (language : Option String) (text : String) :
    List TranscriptionRecord :=
  store ++ [{ id := newId, audioUrl := url, transcriptionText := text,
              source := "mock", language := language.getD "en-US",
              workflowStatus := some .transcription, workflowHistory := [],
              createdAt := now, updatedAt := now }]

/-- C5: workflow creation is atomic. If the mock download or the store write
fails the operation fails and the store is unchanged; on success exactly one
record is appended, with status transcription and a single initial history
entry carrying the workflow-initiated comment. -/
theorem createWorkflow_atomic (now : Nat) (newId : Nat) (store : List TranscriptionRecord)
    (url : String) (language : Option String) (downloadOk : Bool) (text : String)
    (storeWriteOk : Bool) :
    (downloadOk = false ∨ storeWriteOk = false →
      (∃ e, createWorkflow now newId store url language downloadOk text storeWriteOk =
        .error e) ∧
      runCreate now newId store url language downloadOk text storeWriteOk = store) ∧
    (downloadOk = true → storeWriteOk = true →
      createWorkflow now newId store url language downloadOk text storeWriteOk =
        .ok (store ++ [initialWorkflowRecord now newId url language text],
          initialWorkflowRecord now newId url language text) ∧
      (initialWorkflowRecord now newId url language text).workflowStatus =
        some .transcription ∧
      (initialWorkflowRecord now newId url language text).workflowHistory =
        [initialHistoryEntry now] ∧
      (initialHistoryEntry now).comment =
        some "Workflow initiated - transcription completed") := by
  cases downloadOk <;> cases storeWriteOk <;>
    simp [createWorkflow, runCreate, initialWorkflowRecord, initialHistoryEntry]

/-- Witness for C5: a failed download leaves the store unchanged. -/
theorem createWorkflow_atomic_witness :
    (∃ e, createWorkflow 3 1 sampleStore "https://example.com/b.mp3" none false "txt" true =
      .error e) ∧
    runCreate 3 1 sampleStore "https://example.com/b.mp3" none false "txt" true =
      sampleStore :=
  (createWorkflow_atomic 3 1 sampleStore "https://example.com/b.mp3" none false "txt"
    true).1 (Or.inl rfl)

/-- The record persisted by the plain transcription path, with the schema
defaults applied. -/
def plainRec7 : TranscriptionRecord :=
  { id := 7, audioUrl := "https://example.com/p.mp3", transcriptionText := "plain text",
    source := "mock", language := "en-US",
    workflowStatus := some .transcription, workflowHistory := [],
    createdAt := 0, updatedAt := 0 }

/-- C10 counterexample: the record persisted by the plain transcription path
does carry a workflow status field - the schema default fills workflowStatus
with transcription on insert - so the premise that the plain path yields a
record without the field is false of the program. -/
theorem plain_path_record_carries_status :
    findById (createTranscription 0 7 [] "https://example.com/p.mp3" none
      "plain text") 7 = some plainRec7 ∧
    plainRec7.workflowStatus = some .transcription ∧
    plainRec7.workflowStatus ≠ none ∧
    plainRec7.workflowHistory = [] :=
  ⟨by decide, by decide, by decide, by decide⟩

/-- C10 amended: for every stored record whose workflow status holds the
schema default transcription and whose history is empty - which is how the
plain transcription path persists records - getStatus does not fail: it
returns currentStatus transcription, an empty history and canTransition
review and rejected, so a status view with zero history entries is reachable
at the public interface. -/
theorem getStatus_defaulted_plain_record (store : List TranscriptionRecord) (i : Nat)
    (r : TranscriptionRecord)
    (hfind : findById store i = some r)
    (hst : r.workflowStatus = some .transcription)
    (hh : r.workflowHistory = []) :
    getWorkflowStatus store i =
      .ok { id := r.id, currentStatus := .transcription,
            workflowHistory := [], canTransition := [.review, .rejected] } := by
  simp [getWorkflowStatus, hfind, formatWorkflowResponse, hst, hh, validTransitions]

/-- Witness for the amended C10: a record created by the plain transcription
path yields the zero-history status view. -/
theorem getStatus_defaulted_plain_record_witness :
    getWorkflowStatus (createTranscription 0 7 [] "https://example.com/p.mp3" none
      "plain text") 7 =
      .ok { id := 7, currentStatus := .transcription,
            workflowHistory := [], canTransition := [.review, .rejected] } :=
  getStatus_defaulted_plain_record
    (createTranscription 0 7 [] "https://example.com/p.mp3" none "plain text") 7
    plainRec7 (by decide) (by decide) (by decide)

/-- A found record carries the id it was looked up by. -/
theorem findById_eq_some_id {store : List TranscriptionRecord} {i : Nat}
    {r : TranscriptionRecord} (h : findById store i = some r) : r.id = i := by
  have := List.find?_some h
  simpa using this

/-- Saving a record does not disturb lookups of any other id. -/
theorem findById_saveById_ne (store : List TranscriptionRecord)
    (r : TranscriptionRecord) (j : Nat) (hne : r.id ≠ j) :
    findById (saveById store r) j = findById store j := by
  unfold findById saveById
  rw [List.find?_map]
  have hpred : ((fun t : TranscriptionRecord => t.id == j) ∘
      (fun t : TranscriptionRecord => if t.id == r.id then r else t)) =
      (fun t : TranscriptionRecord => t.id == j) := by
    funext t
    by_cases ht : t.id = r.id <;> simp [Function.comp, ht, hne]
  rw [hpred]
  cases hf : store.find? (fun t => t.id == j) with
  | none => simp
  | some t =>
    have htj : t.id = j := by simpa using List.find?_some hf
    have hcond : ¬ (t.id = r.id) := by
      intro hc
      rw [hc] at htj
      exact hne htj
    simp [hcond]

/-- After saving a record, looking up its id yields exactly that record,
provided some record with that id was already present. -/
theorem findById_saveById_self (store : List TranscriptionRecord)
    (r : TranscriptionRecord) (t : TranscriptionRecord)
    (h : findById store r.id = some t) :
    findById (saveById store r) r.id = some r := by
  unfold findById saveById at *
  rw [List.find?_map]
  have hpred : ((fun u : TranscriptionRecord => u.id == r.id) ∘
      (fun u : TranscriptionRecord => if u.id == r.id then r else u)) =
      (fun u : TranscriptionRecord => u.id == r.id) := by
    funext u
    by_cases hu : u.id = r.id <;> simp [Function.comp, hu]
  rw [hpred, h]
  have htid : t.id = r.id := by simpa using List.find?_some h
  simp [htid]

/-- Every transition call either leaves the store unchanged (it threw), or it
found and validated a record and the resulting store is the unconditional save
of the advanced record. -/
theorem runTransition_shape (now : Nat) (store : List TranscriptionRecord)
    (req : TransitionRequest) :
    runTransition now store req = store ∨
    ∃ t cur, findById store req.transcriptionId = some t ∧
      t.workflowStatus = some cur ∧
      req.newStatus ∈ validTransitions cur ∧
      runTransition now store req = saveById store (advanceRecord t req now) := by
  unfold runTransition transitionWorkflow transitionValidate
  cases hf : findById store req.transcriptionId with
  | none => left; simp [hf, Except.map]
  | some t =>
    cases hs : t.workflowStatus with
    | none => left; simp [hf, hs, Except.map]
    | some cur =>
      by_cases hm : req.newStatus ∈ validTransitions cur
      · right
        exact ⟨t, cur, rfl, hs, hm, by simp [hs, hm, Except.map, transitionCommit]⟩
      · left; simp [hf, hs, hm, Except.map]

/-- The switch of autoProgressWorkflow (workflow.service.ts lines 252 to 267):
the next status and system comment decided from the status read at fire time,
with no mapping for completed or rejected. -/
def nextStatusFor : WStatus → Option (WStatus × String)
  | .transcription => some (.review, "Auto-progressed to review phase")
  | .review => some (.approval, "Auto-progressed to approval phase")
  | .approval => some (.completed, "Auto-completed workflow")
  | .completed => none
  | .rejected => none

/-- autoProgressWorkflow (workflow.service.ts lines 241 to 282): re-read the
record at fire time, decide the next step from the current status, and invoke
the transition tagged reviewedBy system. The surrounding catch swallows every
error, so the model is a total function that yields the unchanged store on any
failure path. -/
def autoProgressWorkflow (now : Nat) (store : List TranscriptionRecord) (i : Nat) :
    List TranscriptionRecord :=
  match findById store i with
  | none => store
  | some t =>
    match t.workflowStatus with
    | none => store
    | some cur =>
      match nextStatusFor cur with
      | none => store
      | some (next, c) =>
        runTransition now store
          { transcriptionId := i, newStatus := next,
            comment := some c, reviewedBy := some "system" }

/-- Decidable history invariant: a workflow-bearing record has a non-empty
history whose last entry mirrors the current status. -/
def historyOk (r : TranscriptionRecord) : Bool :=
  match r.workflowStatus with
  | none => true
  | some s =>
    match r.workflowHistory.getLast? with
    | none => false
    | some e => e.status == s

/-- The store-mutating operations of the service, with the nondeterministic
outcomes of the environment (download success, store-write success) as data. -/
inductive WOp where
  | create (now : Nat) (newId : Nat) (url : String) (language : Option String)
      (downloadOk : Bool) (text : String) (storeWriteOk : Bool)
  | transitionOp (now : Nat) (req : TransitionRequest)
  | autoOp (now : Nat) (i : Nat)

/-- Apply one operation to the store, keeping the store unchanged on failure. -/
def applyOp (store : List TranscriptionRecord) : WOp → List TranscriptionRecord
  | .create now newId url lang dOk text sOk =>
      runCreate now newId store url lang dOk text sOk
  | .transitionOp now req => runTransition now store req
  | .autoOp now i => autoProgressWorkflow now store i

/-- Run a sequence of operations. -/
def execOps (store : List TranscriptionRecord) (ops : List WOp) :
    List TranscriptionRecord :=
  ops.foldl applyOp store

/-- The advanced record always satisfies the history invariant: its last
history entry is the freshly pushed one, carrying the new status. -/
theorem historyOk_advanceRecord (t : TranscriptionRecord) (req : TransitionRequest)
    (now : Nat) : historyOk (advanceRecord t req now) = true := by
  simp [historyOk, advanceRecord, List.getLast?_concat]

/-- Saving a record satisfying the invariant into a store of records
satisfying it preserves the invariant for every record. -/
theorem historyOk_saveById (store : List TranscriptionRecord)
    (r' : TranscriptionRecord)
    (h : ∀ r ∈ store, historyOk r = true) (hr' : historyOk r' = true) :
    ∀ r ∈ saveById store r', historyOk r = true := by
  intro r hr
  unfold saveById at hr
  obtain ⟨t, ht, hmap⟩ := List.mem_map.1 hr
  by_cases hc : (t.id == r'.id) = true
  · rw [if_pos hc] at hmap
    exact hmap ▸ hr'
  · rw [if_neg hc] at hmap
    exact hmap ▸ h t ht

/-- A transition preserves the history invariant across the store. -/
theorem historyOk_runTransition (now : Nat) (store : List TranscriptionRecord)
    (req : TransitionRequest) (h : ∀ r ∈ store, historyOk r = true) :
    ∀ r ∈ runTransition now store req, historyOk r = true := by
  rcases runTransition_shape now store req with heq | ⟨t, cur, _, _, _, heq⟩
  · rw [heq]; exact h
  · rw [heq]
    exact historyOk_saveById store (advanceRecord t req now) h
      (historyOk_advanceRecord t req now)

/-- Every operation preserves the history invariant across the store. -/
theorem historyOk_applyOp (store : List TranscriptionRecord) (op : WOp)
    (h : ∀ r ∈ store, historyOk r = true) :
    ∀ r ∈ applyOp store op, historyOk r = true := by
  cases op with
  | create now newId url lang dOk text sOk =>
    intro r hr
    cases dOk <;> cases sOk <;>
      simp [applyOp, runCreate, createWorkflow] at hr
    · exact h r hr
    · exact h r hr
    · exact h r hr
    · rcases hr with hr | hr
      · exact h r hr
      · subst hr
        simp [historyOk, initialWorkflowRecord, initialHistoryEntry]
  | transitionOp now req => exact historyOk_runTransition now store req h
  | autoOp now i =>
    intro r hr
    simp only [applyOp] at hr
    unfold autoProgressWorkflow at hr
    split at hr
    · exact h r hr
    · split at hr
      · exact h r hr
      · split at hr
        · exact h r hr
        · exact historyOk_runTransition now store _ h r hr

/-- The history invariant holds after any operation sequence from an invariant
store. -/
theorem historyOk_execOps (store : List TranscriptionRecord) (ops : List WOp)
    (h : ∀ r ∈ store, historyOk r = true) :
    ∀ r ∈ execOps store ops, historyOk r = true := by
  induction ops generalizing store with
  | nil => exact h
  | cons op ops ih => exact ih (applyOp store op) (historyOk_applyOp store op h)

/-- A successful transition call yields exactly the save of the advanced
record. -/
theorem transition_ok_eq (now : Nat) (store : List TranscriptionRecord)
    (req : TransitionRequest) (t : TranscriptionRecord)
    (s' : List TranscriptionRecord)
    (hfind : findById store req.transcriptionId = some t)
    (hok : transitionWorkflow now store req = .ok s') :
    s' = saveById store (advanceRecord t req now) := by
  unfold transitionWorkflow transitionValidate at hok
  simp only [hfind] at hok
  split at hok
  · simp [Except.map] at hok
  · split at hok
    · simp only [Except.map, transitionCommit, Except.ok.injEq] at hok
      exact hok.symm
    · simp [Except.map] at hok

/-- C2: after any sequence of create, transition and auto-progression
operations from an invariant store, every stored record has a non-empty
history whose last entry mirrors the current status; moreover a successful
transition appends exactly one entry at the end of the history (length grows
by exactly one) and leaves all earlier entries untouched. -/
theorem history_invariant_and_append (store₀ : List TranscriptionRecord)
    (ops : List WOp) (h₀ : ∀ r ∈ store₀, historyOk r = true)
    (now : Nat) (store s' : List TranscriptionRecord) (req : TransitionRequest)
    (t t' : TranscriptionRecord)
    (hfind : findById store req.transcriptionId = some t)
    (hok : transitionWorkflow now store req = .ok s')
    (hfind' : findById s' req.transcriptionId = some t') :
    (∀ r ∈ execOps store₀ ops, historyOk r = true) ∧
    t'.workflowHistory = t.workflowHistory ++
      [{ status := req.newStatus, timestamp := now,
         comment := req.comment, reviewedBy := req.reviewedBy }] ∧
    t'.workflowStatus = some req.newStatus ∧
    t'.workflowHistory.length = t.workflowHistory.length + 1 := by
  have hs' := transition_ok_eq now store req t s' hfind hok
  have hid : t.id = req.transcriptionId := findById_eq_some_id hfind
  have hfind2 : findById store (advanceRecord t req now).id = some t := by
    show findById store t.id = some t
    rw [hid]
    exact hfind
  have hself := findById_saveById_self store (advanceRecord t req now) t hfind2
  rw [← hs'] at hself
  have hat : (advanceRecord t req now).id = req.transcriptionId := by
    show t.id = req.transcriptionId
    exact hid
  rw [hat] at hself
  have ht' : t' = advanceRecord t req now := by
    have := hself.symm.trans hfind'
    exact (Option.some.inj this).symm
  subst ht'
  refine ⟨historyOk_execOps store₀ ops h₀, rfl, rfl, ?_⟩
  simp [advanceRecord]

/-- A concrete manual transition request used by witnesses. -/
def reqReview : TransitionRequest :=
  { transcriptionId := 0, newStatus := .review,
    comment := some "ok", reviewedBy := some "alice" }

/-- Witness for C2 at a concrete input: one manual transition on the sample
store keeps the invariant and appends exactly the one expected entry. -/
theorem history_invariant_and_append_witness :
    (∀ r ∈ execOps sampleStore [WOp.transitionOp 1 reqReview], historyOk r = true) ∧
    (advanceRecord sampleRec0 reqReview 1).workflowHistory =
      sampleRec0.workflowHistory ++
        [{ status := WStatus.review, timestamp := 1,
           comment := some "ok", reviewedBy := some "alice" }] ∧
    (advanceRecord sampleRec0 reqReview 1).workflowStatus = some .review ∧
    (advanceRecord sampleRec0 reqReview 1).workflowHistory.length =
      sampleRec0.workflowHistory.length + 1 :=
  history_invariant_and_append sampleStore [WOp.transitionOp 1 reqReview] (by decide)
    1 sampleStore (saveById sampleStore (advanceRecord sampleRec0 reqReview 1)) reqReview
    sampleRec0 (advanceRecord sampleRec0 reqReview 1)
    (by decide) (by rfl) (by decide)

/-- C3: a scheduled auto-progression firing decides from the status re-read at
fire time: transcription advances to review, review to approval, approval to
completed, each tagged reviewedBy system with the fixed comment; any other
current status (completed or rejected, for example after a manual rejection
that superseded the timer) leads to no action and an unchanged store. -/
theorem autoProgress_fire (now : Nat) (store : List TranscriptionRecord) (i : Nat)
    (t : TranscriptionRecord) (cur : WStatus)
    (hfind : findById store i = some t)
    (hst : t.workflowStatus = some cur) :
    (∀ next c, nextStatusFor cur = some (next, c) →
      next ∈ validTransitions cur ∧
      autoProgressWorkflow now store i =
        saveById store (advanceRecord t
          { transcriptionId := i, newStatus := next,
            comment := some c, reviewedBy := some "system" } now)) ∧
    (nextStatusFor cur = none → autoProgressWorkflow now store i = store) ∧
    nextStatusFor .transcription = some (.review, "Auto-progressed to review phase") ∧
    nextStatusFor .review = some (.approval, "Auto-progressed to approval phase") ∧
    nextStatusFor .approval = some (.completed, "Auto-completed workflow") ∧
    nextStatusFor .completed = none ∧
    nextStatusFor .rejected = none := by
  refine ⟨?_, ?_, rfl, rfl, rfl, rfl, rfl⟩
  · intro next c hn
    have hmem : next ∈ validTransitions cur := by
      cases cur <;> simp_all [nextStatusFor, validTransitions]
    refine ⟨hmem, ?_⟩
    unfold autoProgressWorkflow
    simp only [hfind, hst, hn]
    simp [runTransition, transitionWorkflow, transitionValidate, hfind, hst, hmem,
      Except.map, transitionCommit]
  · intro hn
    unfold autoProgressWorkflow
    simp [hfind, hst, hn]

/-- Witness for C3 at a concrete input: firing on the freshly created sample
record advances it from transcription to review with the system tag. -/
theorem autoProgress_fire_witness :
    autoProgressWorkflow 2 sampleStore 0 =
      saveById sampleStore (advanceRecord sampleRec0
        { transcriptionId := 0, newStatus := .review,
          comment := some "Auto-progressed to review phase",
          reviewedBy := some "system" } 2) :=
  ((autoProgress_fire 2 sampleStore 0 sampleRec0 .transcription (by decide)
    (by decide)).1 .review "Auto-progressed to review phase" rfl).2

/-- C6: a scheduled firing is harmless outside its target: it is a total
function of the store (the catch swallows every failure, so it always returns
a store and never propagates an error), it never alters any record other than
the targeted one, and it leaves the store untouched when the record vanished
or carries no workflow status. -/
theorem autoProgress_isolated (now : Nat) (store : List TranscriptionRecord) (i : Nat) :
    (∀ j, j ≠ i → findById (autoProgressWorkflow now store i) j = findById store j) ∧
    (findById store i = none → autoProgressWorkflow now store i = store) ∧
    (∀ t, findById store i = some t → t.workflowStatus = none →
      autoProgressWorkflow now store i = store) := by
  refine ⟨?_, ?_, ?_⟩
  · intro j hj
    unfold autoProgressWorkflow
    split
    · rfl
    · split
      · rfl
      · split
        · rfl
        · rcases runTransition_shape now store _ with heq | ⟨u, cu, hfu, _, _, heq⟩
          · rw [heq]
          · rw [heq]
            apply findById_saveById_ne
            have hu : u.id = i := findById_eq_some_id hfu
            show u.id ≠ j
            rw [hu]
            exact Ne.symm hj
  · intro h
    unfold autoProgressWorkflow
    simp [h]
  · intro t hf hs
    unfold autoProgressWorkflow
    simp [hf, hs]

/-- Witness for C6 at a concrete input: the firing on id 0 leaves the lookup
of id 5 untouched. -/
theorem autoProgress_isolated_witness :
    findById (autoProgressWorkflow 2 sampleStore 0) 5 = findById sampleStore 5 :=
  (autoProgress_isolated 2 sampleStore 0).1 5 (by decide)

/-- The newStatus whitelist of the transition controller (workflow controller,
lines 99 to 105). Note that transcription is absent from it. -/
def controllerValidStatuses : List WStatus :=
  [.review, .approval, .completed, .rejected]

/-- The PUT transition controller: a newStatus outside the whitelist is
rejected with a 400 message before the service is ever called; otherwise the
request is forwarded to transitionWorkflow and service errors surface as
their messages. -/
def controllerTransition (now : Nat) (store : List TranscriptionRecord)
    (i : Nat) (newStatus : WStatus) (comment reviewedBy : Option String) :
    Except String (List TranscriptionRecord) :=
  if newStatus ∈ controllerValidStatuses then
    match transitionWorkflow now store
      { transcriptionId := i, newStatus := newStatus,
        comment := comment, reviewedBy := reviewedBy } with
    | .ok s => .ok s
    | .error e => .error (errMessage e)
  else
    .error ("Invalid status. Must be one of: " ++
      String.intercalate ", " (controllerValidStatuses.map statusName))

/-- A store holding one record sitting in the review status. -/
def reviewEntry1 : HistoryEntry :=
  { status := .review, timestamp := 1, comment := none, reviewedBy := some "alice" }

def reviewRec : TranscriptionRecord :=
  { id := 0,
    audioUrl := "https://example.com/a.mp3",
    transcriptionText := "sample text",
    source := "mock",
    language := "en-US",
    workflowStatus := some .review,
    workflowHistory := [sampleEntry0, reviewEntry1],
    createdAt := 0,
    updatedAt := 1 }

def reviewStore : List TranscriptionRecord := [reviewRec]

/-- C4: the transition table has the edges review to transcription and
rejected to transcription, and the service-level transition on a review
record with target transcription indeed succeeds; yet the public transition
interface rejects the very same request with the whitelist 400 error, because
the controller whitelist omits transcription. This theorem records that
divergence at a concrete input. -/
theorem controller_blocks_transcription_target :
    WStatus.transcription ∈ validTransitions .review ∧
    WStatus.transcription ∈ validTransitions .rejected ∧
    (transitionWorkflow 2 reviewStore
      { transcriptionId := 0, newStatus := .transcription,
        comment := none, reviewedBy := none }).isOk = true ∧
    controllerTransition 2 reviewStore 0 .transcription none none =
      .error "Invalid status. Must be one of: review, approval, completed, rejected" :=
  ⟨by decide, by decide, by rfl, by rfl⟩

/-- The two racing transition requests of the C7 scenario. -/
def reqApproveA : TransitionRequest :=
  { transcriptionId := 0, newStatus := .approval,
    comment := none, reviewedBy := some "alice" }

def reqRejectB : TransitionRequest :=
  { transcriptionId := 0, newStatus := .rejected,
    comment := none, reviewedBy := some "bob" }

/-- The write mongoose actually issues when transitionWorkflow saves its
modified document: the Transcription schema enables no optimisticConcurrency,
so the update is a path diff matched on the id alone - workflowStatus and
updatedAt are set and the one new history entry is pushed onto whatever
history the store holds at write time - with no predicate on the status the
caller validated against. -/
def diffSave (store : List TranscriptionRecord) (i : Nat) (newStatus : WStatus)
    (now : Nat) (entry : HistoryEntry) : List TranscriptionRecord :=
  store.map fun t =>
    if t.id == i then
      { t with
        workflowStatus := some newStatus
        updatedAt := now
        workflowHistory := t.workflowHistory ++ [entry] }
    else t

/-- On the sequential path the two save models agree: committing a document
that was advanced from the latest stored read writes the same store under the
replace model and under the path-diff model, so the replace model used by the
sequential theorems is faithful there. -/
theorem diffSave_agrees_sequential (store : List TranscriptionRecord)
    (t : TranscriptionRecord) (req : TransitionRequest) (now : Nat)
    (htid : t.id = req.transcriptionId)
    (huniq : ∀ u ∈ store, u.id = req.transcriptionId → u = t) :
    saveById store (advanceRecord t req now) =
      diffSave store req.transcriptionId req.newStatus now
        { status := req.newStatus, timestamp := now,
          comment := req.comment, reviewedBy := req.reviewedBy } := by
  unfold saveById diffSave
  apply List.map_congr_left
  intro u hu
  have hadv : (advanceRecord t req now).id = req.transcriptionId := htid
  by_cases hc : u.id = req.transcriptionId
  · have hut : u = t := huniq u hu hc
    subst hut
    simp [hadv, hc, advanceRecord]
  · have h1 : (u.id == (advanceRecord t req now).id) = false := by
      rw [hadv]
      simpa using hc
    have h2 : (u.id == req.transcriptionId) = false := by simpa using hc
    rw [h1, h2]
    simp

/-- The history entries pushed by the two racing callers of the C7 scenario. -/
def raceEntryA : HistoryEntry :=
  { status := .approval, timestamp := 10, comment := none, reviewedBy := some "alice" }

def raceEntryB : HistoryEntry :=
  { status := .rejected, timestamp := 11, comment := none, reviewedBy := some "bob" }

/-- C7: the read-modify-write of transitionWorkflow carries no stale-status
predicate: the schema enables no optimistic concurrency and the save is a
path diff matched on the id alone. Interleaving two callers on the review
record, both validating against the stored review status before either write
lands, lets both succeed: caller A sets approval, then caller B sets rejected
and pushes its entry even though the stored status at its write time was
approval, not the review it validated against (and review differs from
approval). Neither call fails at any step, and the final record holds the
second status with both pushed entries - so the second caller succeeded
against a stale status, where the claim demands that one of the two racing
callers fail. -/
theorem transition_race_both_succeed :
    transitionValidate 10 reviewStore reqApproveA =
      .ok (advanceRecord reviewRec reqApproveA 10) ∧
    transitionValidate 11 reviewStore reqRejectB =
      .ok (advanceRecord reviewRec reqRejectB 11) ∧
    (advanceRecord reviewRec reqApproveA 10).workflowHistory =
      reviewRec.workflowHistory ++ [raceEntryA] ∧
    (advanceRecord reviewRec reqRejectB 11).workflowHistory =
      reviewRec.workflowHistory ++ [raceEntryB] ∧
    findById (diffSave reviewStore 0 .approval 10 raceEntryA) 0 =
      some { reviewRec with
        workflowStatus := some .approval, updatedAt := 10,
        workflowHistory := [sampleEntry0, reviewEntry1, raceEntryA] } ∧
    findById (diffSave (diffSave reviewStore 0 .approval 10 raceEntryA)
        0 .rejected 11 raceEntryB) 0 =
      some { reviewRec with
        workflowStatus := some .rejected, updatedAt := 11,
        workflowHistory := [sampleEntry0, reviewEntry1, raceEntryA, raceEntryB] } ∧
    WStatus.review ≠ WStatus.approval :=
  ⟨by rfl, by rfl, by decide, by decide, by decide, by decide, by decide⟩

/-- Comparator of the list query sort clause: updatedAt descending with
createdAt descending as tiebreak. recBefore a b says a may precede b. -/
def recBefore (a b : TranscriptionRecord) : Bool :=
  if a.updatedAt = b.updatedAt then decide (b.createdAt ≤ a.createdAt)
  else decide (b.updatedAt < a.updatedAt)

/-- Whether a record matches the mongo query built by listWorkflows: a
workflowStatus field must exist, and must equal the filter when one is given
(the filter assignment overwrites the exists clause in the source). -/
def matchesFilter (filt : Option WStatus) (r : TranscriptionRecord) : Bool :=
  match filt with
  | none => r.workflowStatus.isSome
  | some s => r.workflowStatus == some s

/-- Response shape of the list endpoint. -/
structure WorkflowListResponse where
  workflows : List TranscriptionRecord
  total : Nat
  page : Nat
  limit : Nat
deriving DecidableEq

/-- listWorkflows (workflow.service.ts lines 170 to 206): filter, sort by
updatedAt then createdAt both descending, window with skip and limit, and
count the filtered set for the total. -/
def listWorkflows (store : List TranscriptionRecord) (filt : Option WStatus)
    (page limit : Nat) : WorkflowListResponse :=
  let filtered := store.filter (matchesFilter filt)
  let sorted := filtered.mergeSort recBefore
  { workflows := (sorted.drop ((page - 1) * limit)).take limit,
    total := filtered.length,
    page := page,
    limit := limit }

/-- The sort comparator is transitive. -/
theorem recBefore_trans (a b c : TranscriptionRecord)
    (hab : recBefore a b = true) (hbc : recBefore b c = true) :
    recBefore a c = true := by
  unfold recBefore at *
  by_cases h1 : a.updatedAt = b.updatedAt <;>
    by_cases h2 : b.updatedAt = c.updatedAt <;>
    by_cases h3 : a.updatedAt = c.updatedAt <;>
    simp_all <;> omega

/-- The sort comparator is total. -/
theorem recBefore_total (a b : TranscriptionRecord) :
    (recBefore a b || recBefore b a) = true := by
  unfold recBefore
  by_cases h1 : a.updatedAt = b.updatedAt <;>
    by_cases h2 : b.updatedAt = a.updatedAt <;>
    simp_all <;> omega

/-- C8: the list operation returns only records matching the query (workflow
bearing, and when a status filter is given exactly those of that status), in
most-recently-updated-first order with most-recently-created-first tiebreak,
windowed by page and limit, while the returned total counts the whole
filtered set independently of the pagination window. -/
theorem listWorkflows_spec (store : List TranscriptionRecord) (filt : Option WStatus)
    (page limit : Nat) :
    (∀ r ∈ (listWorkflows store filt page limit).workflows,
      matchesFilter filt r = true) ∧
    List.Pairwise (fun a b => recBefore a b = true)
      (listWorkflows store filt page limit).workflows ∧
    (listWorkflows store filt page limit).total =
      (store.filter (matchesFilter filt)).length ∧
    (listWorkflows store filt page limit).workflows =
      (((store.filter (matchesFilter filt)).mergeSort recBefore).drop
        ((page - 1) * limit)).take limit := by
  refine ⟨?_, ?_, rfl, rfl⟩
  · intro r hr
    simp only [listWorkflows] at hr
    have h1 : r ∈ (store.filter (matchesFilter filt)).mergeSort recBefore :=
      ((List.take_sublist _ _).trans (List.drop_sublist _ _)).subset hr
    exact (List.mem_filter.1 (List.mem_mergeSort.1 h1)).2
  · simp only [listWorkflows]
    exact List.Pairwise.sublist ((List.take_sublist _ _).trans (List.drop_sublist _ _))
      (List.sorted_mergeSort recBefore_trans recBefore_total _)

/-- Witness for C8 at a concrete input: the single review record is returned
by the review-filtered list and indeed matches the filter. -/
theorem listWorkflows_spec_witness :
    matchesFilter (some .review) reviewRec = true :=
  (listWorkflows_spec reviewStore (some .review) 1 10).1 reviewRec
    (by simp [listWorkflows, reviewStore, matchesFilter, reviewRec,
      List.mergeSort_singleton])

/-- Retry configuration of AzureService: 3 attempts, base delay 1000 ms,
delay cap 8000 ms. -/
structure RetryConfig where
  maxAttempts : Nat
  baseDelay : Nat
  maxDelay : Nat

def retryConfig : RetryConfig :=
  { maxAttempts := 3, baseDelay := 1000, maxDelay := 8000 }

/-- calculateDelay: exponential backoff doubling from the base, capped. -/
def calculateDelay (attempt : Nat) : Nat :=
  min (retryConfig.baseDelay * 2 ^ (attempt - 1)) retryConfig.maxDelay

/-- The withRetry loop with the per-attempt outcomes given as a function from
attempt number to outcome. Yields the final outcome, the attempt numbers
actually invoked, and the delays waited between attempts; the loop breaks
without waiting after the final attempt. -/
def withRetryGo (op : Nat → Except String String) :
    Nat → Nat → Except String String × List Nat × List Nat
  | _, 0 => (.error "", [], [])
  | attempt, fuel + 1 =>
    match op attempt with
    | .ok a => (.ok a, [attempt], [])
    | .error e =>
      if fuel = 0 then (.error e, [attempt], [])
      else
        let rest := withRetryGo op (attempt + 1) fuel
        (rest.1, attempt :: rest.2.1, calculateDelay attempt :: rest.2.2)

def withRetry (op : Nat → Except String String) :
    Except String String × List Nat × List Nat :=
  withRetryGo op 1 retryConfig.maxAttempts

/-- The loop never makes more attempts than its fuel allows. -/
theorem withRetryGo_attempts_le (op : Nat → Except String String)
    (start fuel : Nat) : (withRetryGo op start fuel).2.1.length ≤ fuel := by
  induction fuel generalizing start with
  | zero => simp [withRetryGo]
  | succ n ih =>
    unfold withRetryGo
    cases h : op start with
    | ok a => simp
    | error e =>
      by_cases hn : n = 0
      · simp [hn]
      · simp only [hn, if_false]
        have := ih (start + 1)
        simp
        omega

/-- When the three attempts all fail, the loop invokes exactly attempts one,
two and three, waits 1000 then 2000 between them, and surfaces the last
error. -/
theorem withRetry_all_fail (op : Nat → Except String String)
    (e1 e2 e3 : String)
    (h1 : op 1 = .error e1) (h2 : op 2 = .error e2) (h3 : op 3 = .error e3) :
    withRetry op = (.error e3, [1, 2, 3], [1000, 2000]) := by
  unfold withRetry
  show withRetryGo op 1 3 = _
  unfold withRetryGo
  rw [h1]
  simp only
  unfold withRetryGo
  rw [h2]
  simp only
  unfold withRetryGo
  rw [h3]
  simp [calculateDelay, retryConfig]

/-- Environment outcomes for one createAzureTranscription call. -/
structure AzureEnv where
  configOk : Bool
  downloadOk : Bool
  azureCall : Nat → Except String String
  mainSaveOk : Bool
  fallbackSaveOk : Bool

def fallbackText : String :=
  "This is a fallback transcription generated when Azure Speech Service is unavailable."

/-- The record persisted by the fallback path, marked as mock source; the
schema default fills workflowStatus with transcription on insert. -/
def fallbackRecord (now newId : Nat) (url : String) (language : Option String) :
    TranscriptionRecord :=
  { id := newId, audioUrl := url, transcriptionText := fallbackText,
    source := "mock", language := language.getD "en-US",
    workflowStatus := some .transcription, workflowHistory := [],
    createdAt := now, updatedAt := now }

/-- The record persisted on the successful Azure path; the schema default
fills workflowStatus with transcription on insert. -/
def azureRecord (now newId : Nat) (url : String) (language : Option String)
    (text : String) : TranscriptionRecord :=
  { id := newId, audioUrl := url, transcriptionText := text,
    source := "azure", language := language.getD "en-US",
    workflowStatus := some .transcription, workflowHistory := [],
    createdAt := now, updatedAt := now }

/-- fallbackToMockTranscription: persist the canned fallback record; a hard
failure arises only when that write itself fails. -/
def fallbackToMockTranscription (env : AzureEnv) (now newId : Nat)
    (store : List TranscriptionRecord) (url : String) (language : Option String) :
    Except String (List TranscriptionRecord × String) :=
  if env.fallbackSaveOk then
    .ok (store ++ [fallbackRecord now newId url language],
      "Transcription saved (fallback mode)")
  else
    .error "Both Azure and fallback transcription failed"

/-- createAzureTranscription: config check, download, retry-wrapped remote
call, then save; any failure in that pipeline is caught and routed to the
fallback write. -/
def createAzureTranscription (env : AzureEnv) (now newId : Nat)
    (store : List TranscriptionRecord) (url : String) (language : Option String) :
    Except String (List TranscriptionRecord × String) :=
  let main : Except String String :=
    if env.configOk = false then
      .error "AZURE_REGION is required for Azure Speech Service"
    else if env.downloadOk = false then
      .error "Failed to download audio for Azure processing"
    else (withRetry env.azureCall).1
  match main with
  | .ok text =>
    if env.mainSaveOk then
      .ok (store ++ [azureRecord now newId url language text], "Transcription saved")
    else
      fallbackToMockTranscription env now newId store url language
  | .error _ => fallbackToMockTranscription env now newId store url language

/-- C9: the remote-speech producer invokes the underlying call at most three
times; the wait before retry n plus 1 is exactly the minimum of baseDelay
times 2 to the power n minus 1 and maxDelay (base 1000, cap 8000, so the
waits are 1000 then 2000); after all attempts fail the create still succeeds
by persisting the fallback record, and it fails outright exactly when the
fallback write itself fails. -/
theorem azure_retry_and_fallback (env : AzureEnv) (now newId : Nat)
    (store : List TranscriptionRecord) (url : String) (language : Option String)
    (e1 e2 e3 : String)
    (hcfg : env.configOk = true) (hdl : env.downloadOk = true)
    (h1 : env.azureCall 1 = .error e1) (h2 : env.azureCall 2 = .error e2)
    (h3 : env.azureCall 3 = .error e3) :
    (∀ op : Nat → Except String String,
      (withRetry op).2.1.length ≤ retryConfig.maxAttempts) ∧
    (∀ n : Nat, calculateDelay n =
      min (retryConfig.baseDelay * 2 ^ (n - 1)) retryConfig.maxDelay) ∧
    (withRetry env.azureCall).2.1 = [1, 2, 3] ∧
    (withRetry env.azureCall).2.2 = [1000, 2000] ∧
    createAzureTranscription env now newId store url language =
      (if env.fallbackSaveOk then
        .ok (store ++ [fallbackRecord now newId url language],
          "Transcription saved (fallback mode)")
      else .error "Both Azure and fallback transcription failed") := by
  have hall := withRetry_all_fail env.azureCall e1 e2 e3 h1 h2 h3
  refine ⟨fun op => withRetryGo_attempts_le op 1 3, fun n => rfl, ?_, ?_, ?_⟩
  · rw [hall]
  · rw [hall]
  · unfold createAzureTranscription
    simp only [hcfg, hdl, hall, fallbackToMockTranscription]
    simp

/-- A concrete environment whose remote call always fails. -/
def failingEnv : AzureEnv :=
  { configOk := true, downloadOk := true,
    azureCall := fun _ => .error "Azure Speech API error",
    mainSaveOk := true, fallbackSaveOk := true }

/-- Witness for C9 at a concrete input: three failed attempts, waits 1000 and
2000, and a successful fallback write. -/
theorem azure_retry_and_fallback_witness :
    (withRetry failingEnv.azureCall).2.1 = [1, 2, 3] ∧
    (withRetry failingEnv.azureCall).2.2 = [1000, 2000] ∧
    createAzureTranscription failingEnv 0 9 [] "https://example.com/a.wav" none =
      .ok ([fallbackRecord 0 9 "https://example.com/a.wav" none],
        "Transcription saved (fallback mode)") := by
  have h := azure_retry_and_fallback failingEnv 0 9 [] "https://example.com/a.wav" none
    "Azure Speech API error" "Azure Speech API error" "Azure Speech API error"
    rfl rfl rfl rfl rfl
  exact ⟨h.2.2.1, h.2.2.2.1, by simpa using h.2.2.2.2⟩
